import Mathlib

/-!
Verification of the concurrent system-resource monitoring engine
(`EnhancedSystemMonitor` in `realTimeTools/EnhancedMonitor.py`).

The Python code is shallowly embedded: timestamps and metric values
(Python floats) are modelled as rationals, the `alert_history` dict as an
association list keyed by the `(metric, threshold)` pair (the code keys it
by the string `f"{metric}_{threshold}"`, which is injective over the
program's metric names `cpu`, `memory`, `disk`, `network_upload`,
`network_download`), the per-metric `deque(maxlen=1000)` buffers as lists
with explicit eviction, and the side-effecting lifecycle methods as pure
functions from a supervisor state to a new state plus an effect record.
-/

namespace EnhancedMonitor

/-- An alert key: the code forms `alert_key = f"{metric}_{threshold}"`;
we keep the two components. -/
abbrev AlertKey := String × ℚ

/-- The `self.alert_history` dict: alert key → last-fire timestamp.
Kept as an association list with unique keys (the update re-inserts
at the front after removing the old binding). -/
abbrev AlertHist := List (AlertKey × ℚ)

/-- The dict update `self.alert_history[alert_key] = current_time`. -/
def histSet (h : AlertHist) (k : AlertKey) (v : ℚ) : AlertHist :=
  (k, v) :: h.filter (fun p => p.1 ≠ k)

/-- Model of `EnhancedSystemMonitor.check_alert_conditions(metric, value, threshold)`.
`cooldown` is `config['alert_settings']['alert_cooldown_seconds']`, `now` is
`time.time()`, `h` is `self.alert_history`.  Returns the bool result paired
with the updated `alert_history` (the alert key is `(metric, threshold)`). -/
def check_alert_conditions (cooldown : ℚ) (h : AlertHist) (now : ℚ)
    (metric : String) (value threshold : ℚ) : Bool × AlertHist :=
  match h.lookup (metric, threshold) with
  | some last =>
      if now - last < cooldown then (false, h)
      else if value > threshold then (true, histSet h (metric, threshold) now)
      else (false, h)
  | none =>
      if value > threshold then (true, histSet h (metric, threshold) now)
      else (false, h)

theorem lookup_histSet_self (h : AlertHist) (k : AlertKey) (v : ℚ) :
    (histSet h k v).lookup k = some v := by
  simp [histSet, List.lookup]

theorem check_fire_iff (cooldown : ℚ) (h : AlertHist) (now : ℚ)
    (metric : String) (value threshold : ℚ) :
    (check_alert_conditions cooldown h now metric value threshold).1 = true ↔
      (threshold < value ∧
        (h.lookup (metric, threshold) = none ∨
          ∃ last, h.lookup (metric, threshold) = some last ∧
            cooldown ≤ now - last)) := by
  unfold check_alert_conditions
  cases hl : h.lookup (metric, threshold) with
  | none =>
      by_cases hv : threshold < value
      · simp [hv]
      · simp [hv]
  | some last =>
      by_cases hc : now - last < cooldown
      · simp [hc]
      · by_cases hv : threshold < value
        · simp [hc, hv]
          exact not_lt.mp hc
        · simp [hc, hv]

theorem check_fire_record (cooldown : ℚ) (h : AlertHist) (now : ℚ)
    (metric : String) (value threshold : ℚ) :
    (check_alert_conditions cooldown h now metric value threshold).1 = true →
      (check_alert_conditions cooldown h now metric value threshold).2.lookup
        (metric, threshold) = some now := by
  unfold check_alert_conditions
  cases hl : h.lookup (metric, threshold) with
  | none =>
      by_cases hv : threshold < value
      · simp [hv, lookup_histSet_self]
      · simp [hv]
  | some last =>
      by_cases hc : now - last < cooldown
      · simp [hc]
      · by_cases hv : threshold < value
        · simp [hc, hv, lookup_histSet_self]
        · simp [hc, hv]

theorem check_nofire_frame (cooldown : ℚ) (h : AlertHist) (now : ℚ)
    (metric : String) (value threshold : ℚ) :
    (check_alert_conditions cooldown h now metric value threshold).1 = false →
      (check_alert_conditions cooldown h now metric value threshold).2 = h := by
  unfold check_alert_conditions
  cases hl : h.lookup (metric, threshold) with
  | none =>
      by_cases hv : threshold < value
      · simp [hv]
      · simp [hv]
  | some last =>
      by_cases hc : now - last < cooldown
      · simp [hc]
      · by_cases hv : threshold < value
        · simp [hc, hv]
        · simp [hc, hv]

/-- C1: `check_alert_conditions` fires exactly when the value strictly
exceeds the threshold and the key is either unseen or out of cooldown;
on firing it records `now` for the key, on not firing it leaves the
history unchanged; a value equal to the threshold never fires. -/
theorem check_alert_conditions_correct (cooldown : ℚ) (h : AlertHist)
    (now : ℚ) (metric : String) (value threshold : ℚ) :
    ((check_alert_conditions cooldown h now metric value threshold).1 = true ↔
      (threshold < value ∧
        (h.lookup (metric, threshold) = none ∨
          ∃ last, h.lookup (metric, threshold) = some last ∧
            cooldown ≤ now - last))) ∧
    ((check_alert_conditions cooldown h now metric value threshold).1 = true →
      (check_alert_conditions cooldown h now metric value threshold).2.lookup
        (metric, threshold) = some now) ∧
    ((check_alert_conditions cooldown h now metric value threshold).1 = false →
      (check_alert_conditions cooldown h now metric value threshold).2 = h) ∧
    (value = threshold →
      (check_alert_conditions cooldown h now metric value threshold).1 = false) := by
  refine ⟨check_fire_iff cooldown h now metric value threshold,
    check_fire_record cooldown h now metric value threshold,
    check_nofire_frame cooldown h now metric value threshold, ?_⟩
  intro he
  rcases hb : (check_alert_conditions cooldown h now metric value threshold).1 with _ | _
  · rfl
  · have := (check_fire_iff cooldown h now metric value threshold).mp hb
    rw [he] at this
    exact absurd this.1 (lt_irrefl threshold)

/-- Witness for C1 at concrete inputs: with cooldown 300 and empty history,
a value 85 against threshold 80 fires and records time 0. -/
theorem check_alert_conditions_correct_witness :
    ((check_alert_conditions 300 [] 0 "cpu" 85 80).1 = true ↔
      ((80 : ℚ) < 85 ∧
        (([] : AlertHist).lookup ("cpu", (80 : ℚ)) = none ∨
          ∃ last, ([] : AlertHist).lookup ("cpu", (80 : ℚ)) = some last ∧
            (300 : ℚ) ≤ 0 - last))) ∧
    ((check_alert_conditions 300 [] 0 "cpu" 85 80).1 = true →
      (check_alert_conditions 300 [] 0 "cpu" 85 80).2.lookup
        ("cpu", (80 : ℚ)) = some 0) ∧
    ((check_alert_conditions 300 [] 0 "cpu" 85 80).1 = false →
      (check_alert_conditions 300 [] 0 "cpu" 85 80).2 = []) ∧
    ((85 : ℚ) = 80 →
      (check_alert_conditions 300 [] 0 "cpu" 85 80).1 = false) :=
  check_alert_conditions_correct 300 [] 0 "cpu" 85 80

/-- One `deque(maxlen=cap).append(x)` on a buffer `buf` with `buf.length ≤ cap`:
when the deque is full, appending discards the leftmost (oldest) element.
The `self.data_history` buffers are created as `deque(maxlen=1000)`. -/
def dequeAppend (cap : ℕ) (buf : List α) (x : α) : List α :=
  if buf.length < cap then buf ++ [x] else buf.drop 1 ++ [x]

/-- The buffer obtained by appending the samples `xs` in order to an
initially empty `deque(maxlen=cap)`. -/
def dequeOfAppends (cap : ℕ) (xs : List α) : List α :=
  xs.foldl (dequeAppend cap) []

theorem dequeAppend_length_le {cap : ℕ} (hcap : 0 < cap) (buf : List α)
    (x : α) (hb : buf.length ≤ cap) : (dequeAppend cap buf x).length ≤ cap := by
  unfold dequeAppend
  by_cases hl : buf.length < cap
  · simp only [if_pos hl, List.length_append, List.length_singleton]
    omega
  · simp only [if_neg hl, List.length_append, List.length_singleton,
      List.length_drop]
    omega

theorem foldl_dequeAppend_drop {cap : ℕ} (hcap : 0 < cap) :
    ∀ (xs buf : List α), buf.length ≤ cap →
      xs.foldl (dequeAppend cap) buf =
        (buf ++ xs).drop (buf.length + xs.length - cap) := by
  intro xs
  induction xs with
  | nil =>
      intro buf hb
      simp [Nat.sub_eq_zero_of_le hb]
  | cons x xs ih =>
      intro buf hb
      rw [List.foldl_cons]
      rw [ih (dequeAppend cap buf x) (dequeAppend_length_le hcap buf x hb)]
      unfold dequeAppend
      by_cases hl : buf.length < cap
      · simp only [if_pos hl]
        have h3 : (buf ++ [x]).length + xs.length - cap
            = buf.length + (x :: xs).length - cap := by
          simp only [List.length_append, List.length_singleton,
            List.length_cons, List.length_nil]
          omega
        rw [h3, List.append_assoc, List.singleton_append]
      · have hb' : buf.length = cap := le_antisymm hb (not_lt.mp hl)
        simp only [if_neg hl]
        cases buf with
        | nil =>
            simp at hb'
            omega
        | cons b bt =>
            have hbt : bt.length + 1 = cap := by simpa using hb'
            simp only [List.drop_succ_cons, List.drop_zero]
            have h3 : (bt ++ [x]).length + xs.length - cap = xs.length := by
              simp only [List.length_append, List.length_singleton,
                List.length_cons, List.length_nil]
              omega
            have h4 : (b :: bt).length + (x :: xs).length - cap
                = xs.length + 1 := by
              simp only [List.length_cons, List.length_nil]
              omega
            rw [h3, h4, List.cons_append, List.drop_succ_cons,
              List.append_assoc, List.singleton_append]

/-- C2: a history buffer of capacity `cap` fed more than `cap` samples has
length exactly `cap` and holds exactly the most recent `cap` samples in
arrival order (FIFO eviction of the oldest on each append past capacity). -/
theorem data_history_fifo {α : Type} (cap : ℕ) (hcap : 0 < cap)
    (xs : List α) (hlen : cap ≤ xs.length) :
    (dequeOfAppends cap xs).length = cap ∧
      dequeOfAppends cap xs = xs.drop (xs.length - cap) := by
  have hd : dequeOfAppends cap xs = xs.drop (xs.length - cap) := by
    unfold dequeOfAppends
    rw [foldl_dequeAppend_drop hcap xs [] (by simp)]
    simp
  refine ⟨?_, hd⟩
  rw [hd, List.length_drop]
  omega

/-- Witness for C2, the spec's own example: capacity 3, appending four
samples `0,1,2,3` yields a buffer of length 3 containing `[1,2,3]`. -/
theorem data_history_fifo_witness :
    (dequeOfAppends 3 [0, 1, 2, 3]).length = 3 ∧
      dequeOfAppends 3 [0, 1, 2, 3] =
        [(0 : ℕ), 1, 2, 3].drop ([(0 : ℕ), 1, 2, 3].length - 3) :=
  data_history_fifo 3 (by decide) [0, 1, 2, 3] (by decide)

/-- The unit list of `format_bytes`: `units = ['B', 'KB', 'MB', 'GB', 'TB']`. -/
def byteUnits : List String := ["B", "KB", "MB", "GB", "TB"]

/-- The unit-selection loop of `format_bytes`: walk the unit list, return at
the first unit where the running value is `< 1024`, else divide by 1024 and
continue; after exhausting the list return the running value with `"PB"`.
The `f"{...:.2f} {unit}"` string is represented by its two components, the
scaled value and the unit. -/
def formatBytesLoop : List String → ℚ → ℚ × String
  | [], v => (v, "PB")
  | u :: us, v => if v < 1024 then (v, u) else formatBytesLoop us (v / 1024)

/-- Model of `EnhancedSystemMonitor.format_bytes(bytes_value)`, as the pair
(scaled value, unit) whose rendering is the returned string. -/
def format_bytes (v : ℚ) : ℚ × String := formatBytesLoop byteUnits v

theorem div_div_pow (v : ℚ) (j : ℕ) :
    v / 1024 / 1024 ^ j = v / 1024 ^ (j + 1) := by
  rw [div_div, ← pow_succ']

theorem formatBytesLoop_select :
    ∀ (us : List String) (w : ℚ) (k : ℕ) (hk : k < us.length),
      (∀ j, j < k → 1024 ≤ w / 1024 ^ j) → w / 1024 ^ k < 1024 →
      formatBytesLoop us w = (w / 1024 ^ k, us.get ⟨k, hk⟩) := by
  intro us
  induction us with
  | nil =>
      intro w k hk
      exact absurd hk (by simp)
  | cons u us ih =>
      intro w k hk hge hlt
      cases k with
      | zero =>
          simp only [pow_zero, div_one] at hlt
          simp [formatBytesLoop, hlt, pow_zero]
      | succ k' =>
          have h0 : 1024 ≤ w := by
            have := hge 0 (Nat.succ_pos k')
            simpa using this
          have hk' : k' < us.length := by simpa using hk
          have hge' : ∀ j, j < k' → 1024 ≤ w / 1024 / 1024 ^ j := by
            intro j hj
            rw [div_div_pow]
            exact hge (j + 1) (by omega)
          have hlt' : w / 1024 / 1024 ^ k' < 1024 := by
            rw [div_div_pow]
            exact hlt
          simp only [formatBytesLoop, if_neg (not_lt.mpr h0)]
          rw [ih (w / 1024) k' hk' hge' hlt', div_div_pow]
          rfl

theorem formatBytesLoop_overflow :
    ∀ (us : List String) (w : ℚ),
      (∀ j, j < us.length → 1024 ≤ w / 1024 ^ j) →
      formatBytesLoop us w = (w / 1024 ^ us.length, "PB") := by
  intro us
  induction us with
  | nil =>
      intro w _
      simp [formatBytesLoop]
  | cons u us ih =>
      intro w hge
      have h0 : 1024 ≤ w := by
        have := hge 0 (by simp)
        simpa using this
      have hge' : ∀ j, j < us.length → 1024 ≤ w / 1024 / 1024 ^ j := by
        intro j hj
        rw [div_div_pow]
        exact hge (j + 1) (by simpa using Nat.succ_lt_succ hj)
      simp only [formatBytesLoop, if_neg (not_lt.mpr h0)]
      rw [ih (w / 1024) hge', div_div_pow]
      rfl

theorem le_div_pow_of_pow_le {v : ℚ} (j : ℕ) (hv : 1024 ^ (j + 1) ≤ v) :
    1024 ≤ v / 1024 ^ j := by
  rw [le_div_iff₀ (by positivity)]
  calc (1024 : ℚ) * 1024 ^ j = 1024 ^ (j + 1) := by ring
    _ ≤ v := hv

/-- C10: `format_bytes(v)` for `0 ≤ v` scales by the first `k ≤ 4` with
`v / 1024^k < 1024` and uses unit `units[k]`; when `1024^5 ≤ v` it falls
through every unit and reports `v / 1024^5` in `PB`.  Unit boundaries lie
at exact powers of 1024. -/
theorem format_bytes_correct (v : ℚ) (h0 : 0 ≤ v) :
    (∀ (k : ℕ) (hk : k < 5), v / 1024 ^ k < 1024 →
      (∀ j, j < k → 1024 ≤ v / 1024 ^ j) →
      format_bytes v = (v / 1024 ^ k, byteUnits.get ⟨k, by simpa [byteUnits] using hk⟩)) ∧
    ((1024 : ℚ) ^ 5 ≤ v → format_bytes v = (v / 1024 ^ 5, "PB")) := by
  constructor
  · intro k hk hlt hge
    exact formatBytesLoop_select byteUnits v k
      (by simpa [byteUnits] using hk) hge hlt
  · intro hbig
    have hge : ∀ j, j < byteUnits.length → 1024 ≤ v / 1024 ^ j := by
      intro j hj
      have hj5 : j < 5 := by simpa [byteUnits] using hj
      refine le_div_pow_of_pow_le j (le_trans ?_ hbig)
      exact pow_le_pow_right₀ (by norm_num) (by omega)
    rw [format_bytes, formatBytesLoop_overflow byteUnits v hge]
    rfl

/-- Witness for C10: `format_bytes` at `v = 1048576 = 1024 ^ 2` selects
unit index 2 (`MB`) with scaled value `v / 1024 ^ 2`. -/
theorem format_bytes_correct_witness :
    format_bytes 1048576 =
      (1048576 / 1024 ^ 2, byteUnits.get ⟨2, by norm_num [byteUnits]⟩) :=
  (format_bytes_correct 1048576 (by norm_num)).1 2 (by norm_num)
    (by norm_num)
    (by
      intro j hj
      interval_cases j <;> norm_num)

/-- One entry of `self.data_history['cpu']` (fields appended by
`monitor_cpu_enhanced`). -/
structure CpuSample where
  timestamp : ℚ
  cpu_percent : ℚ
  core_count : ℕ
  per_cpu : List ℚ

/-- One entry of `self.data_history['memory']` (fields appended by
`monitor_memory_enhanced`). -/
structure MemorySample where
  timestamp : ℚ
  memory_percent : ℚ
  used_gb : ℚ
  total_gb : ℚ
  swap_percent : ℚ
  swap_used_gb : ℚ
  swap_total_gb : ℚ

/-- One entry of `self.data_history['network']` (fields appended by
`monitor_network_enhanced`). -/
structure NetworkSample where
  timestamp : ℚ
  upload_speed : ℚ
  download_speed : ℚ
  total_sent : ℕ
  total_recv : ℕ
  active_interfaces : List String

/-- One entry of `self.data_history['disk']` (fields appended by
`monitor_disk_enhanced`). -/
structure DiskSample where
  timestamp : ℚ
  device : String
  mountpoint : String
  disk_percent : ℚ
  used_gb : ℚ
  total_gb : ℚ
  free_gb : ℚ

/-- The four bounded history buffers of `self.data_history`. -/
structure DataHistory where
  cpu : List CpuSample
  memory : List MemorySample
  network : List NetworkSample
  disk : List DiskSample

/-- The `{'min': ..., 'max': ..., 'avg': ...}` block of
`get_monitoring_summary`. -/
structure MetricStats where
  min : ℚ
  max : ℚ
  avg : ℚ

/-- The `min(values)/max(values)/sum(values)/len(values)` statistics of
`get_monitoring_summary`, computed only when the metric has data
(the code guards with `if data:`; `values` has the same length as `data`,
so the guard is equivalently emptiness of `values`). -/
def statsOf (values : List ℚ) : Option MetricStats :=
  match values with
  | [] => none
  | v :: vs =>
      some ⟨vs.foldl Min.min v, vs.foldl Max.max v,
        (v :: vs).sum / (v :: vs).length⟩

/-- The dictionary returned by
`EnhancedSystemMonitor.get_monitoring_summary`. -/
structure MonitoringSummary where
  start_time : Option ℚ
  total_runtime : Option ℚ
  data_points_cpu : ℕ
  data_points_memory : ℕ
  data_points_network : ℕ
  data_points_disk : ℕ
  alerts_triggered : ℕ
  cpu_stats : Option MetricStats
  memory_stats : Option MetricStats
  network_stats : Option MetricStats
  disk_stats : Option MetricStats

/-- Model of `EnhancedSystemMonitor.get_monitoring_summary()`:  `now` is
`datetime.now()`, `st` is `self.start_time`, `ah` is `self.alert_history`,
`h` is `self.data_history`.  The `system_info` entry is an external
collaborator query and is not part of the monitoring state.  Per-metric
values are `cpu_percent`, `memory_percent`, `upload_speed + download_speed`
and `disk_percent`. -/
def get_monitoring_summary (now : ℚ) (st : Option ℚ) (ah : AlertHist)
    (h : DataHistory) : MonitoringSummary :=
  { start_time := st
    total_runtime := st.map (fun t => now - t)
    data_points_cpu := h.cpu.length
    data_points_memory := h.memory.length
    data_points_network := h.network.length
    data_points_disk := h.disk.length
    alerts_triggered := ah.length
    cpu_stats := statsOf (h.cpu.map (fun d => d.cpu_percent))
    memory_stats := statsOf (h.memory.map (fun d => d.memory_percent))
    network_stats := statsOf
      (h.network.map (fun d => d.upload_speed + d.download_speed))
    disk_stats := statsOf (h.disk.map (fun d => d.disk_percent)) }

theorem statsOf_none_iff (values : List ℚ) :
    statsOf values = none ↔ values = [] := by
  cases values <;> simp [statsOf]

theorem statsOf_avg (values : List ℚ) (s : MetricStats)
    (hs : statsOf values = some s) :
    0 < values.length ∧ s.avg = values.sum / values.length := by
  cases values with
  | nil => exact absurd hs (by simp [statsOf])
  | cons v vs =>
      refine ⟨by simp, ?_⟩
      have : s = ⟨vs.foldl Min.min v, vs.foldl Max.max v,
          (v :: vs).sum / (v :: vs).length⟩ := by
        simpa [statsOf] using hs.symm
      rw [this]

/-- C8: `get_monitoring_summary` is total (models a call that raises no
exception); every metric whose buffer is empty has its `{metric}_stats`
entry absent (`none`), and every present stats entry was computed over a
strictly positive sample count, so its average never divides by zero. -/
theorem get_monitoring_summary_safe (now : ℚ) (st : Option ℚ)
    (ah : AlertHist) (h : DataHistory) :
    ((get_monitoring_summary now st ah h).cpu_stats = none ↔ h.cpu = []) ∧
    ((get_monitoring_summary now st ah h).memory_stats = none ↔
      h.memory = []) ∧
    ((get_monitoring_summary now st ah h).network_stats = none ↔
      h.network = []) ∧
    ((get_monitoring_summary now st ah h).disk_stats = none ↔ h.disk = []) ∧
    (∀ s, (get_monitoring_summary now st ah h).cpu_stats = some s →
      0 < h.cpu.length ∧
        s.avg = (h.cpu.map (fun d => d.cpu_percent)).sum / h.cpu.length) ∧
    (∀ s, (get_monitoring_summary now st ah h).memory_stats = some s →
      0 < h.memory.length ∧
        s.avg = (h.memory.map (fun d => d.memory_percent)).sum /
          h.memory.length) ∧
    (∀ s, (get_monitoring_summary now st ah h).network_stats = some s →
      0 < h.network.length ∧
        s.avg = (h.network.map
          (fun d => d.upload_speed + d.download_speed)).sum /
          h.network.length) ∧
    (∀ s, (get_monitoring_summary now st ah h).disk_stats = some s →
      0 < h.disk.length ∧
        s.avg = (h.disk.map (fun d => d.disk_percent)).sum /
          h.disk.length) := by
  refine ⟨?_, ?_, ?_, ?_, ?_, ?_, ?_, ?_⟩
  · rw [get_monitoring_summary]
    rw [statsOf_none_iff]
    simp
  · rw [get_monitoring_summary]
    rw [statsOf_none_iff]
    simp
  · rw [get_monitoring_summary]
    rw [statsOf_none_iff]
    simp
  · rw [get_monitoring_summary]
    rw [statsOf_none_iff]
    simp
  · intro s hs
    have := statsOf_avg _ s hs
    simpa using this
  · intro s hs
    have := statsOf_avg _ s hs
    simpa using this
  · intro s hs
    have := statsOf_avg _ s hs
    simpa using this
  · intro s hs
    have := statsOf_avg _ s hs
    simpa using this

/-- Witness for C8 at a concrete state: empty cpu buffer and a one-sample
memory buffer: the cpu stats entry is absent and the memory stats entry is
present with average over one sample. -/
theorem get_monitoring_summary_safe_witness :
    ((get_monitoring_summary 1 none []
        ⟨[], [⟨0, 40, 2, 8, 0, 0, 0⟩], [], []⟩).cpu_stats = none ↔
      ([] : List CpuSample) = []) ∧
    ((get_monitoring_summary 1 none []
        ⟨[], [⟨0, 40, 2, 8, 0, 0, 0⟩], [], []⟩).memory_stats = none ↔
      [(⟨0, 40, 2, 8, 0, 0, 0⟩ : MemorySample)] = []) :=
  ⟨(get_monitoring_summary_safe 1 none []
      ⟨[], [⟨0, 40, 2, 8, 0, 0, 0⟩], [], []⟩).1,
    (get_monitoring_summary_safe 1 none []
      ⟨[], [⟨0, 40, 2, 8, 0, 0, 0⟩], [], []⟩).2.1⟩

/-- A CSV cell: numeric values are written from floats, textual values
(timestamps rendered by `csv.writer`, device names) from strings. -/
inductive CsvCell
  | num (q : ℚ)
  | nat (n : ℕ)
  | text (s : String)
deriving DecidableEq

/-- One file written by `export_data_to_csv`: its path, the `open` mode
(always `'w'` in the code: create or truncate, never append), the header
row and the data rows. -/
structure CsvFile where
  path : String
  mode : String
  header : List String
  rows : List (List CsvCell)
deriving DecidableEq

/-- Model of `EnhancedSystemMonitor.export_data_to_csv()` as the list of files it
writes, in order.  `enable_csv_export` is
`config['data_export']['enable_csv_export']`, `csv_directory` is
`config['data_export']['csv_directory']`, `timestamp` is
`datetime.now().strftime("%Y%m%d_%H%M%S")` (second resolution).  The body
writes a cpu file when `self.data_history['cpu']` is non-empty and a
memory file when `self.data_history['memory']` is non-empty; it contains
no branch for the network or disk buffers. -/
def export_data_to_csv (enable_csv_export : Bool)
    (csv_directory timestamp : String) (h : DataHistory) : List CsvFile :=
  if enable_csv_export = false then []
  else
    (if h.cpu.isEmpty then [] else
      [{ path := csv_directory ++ "/cpu_data_" ++ timestamp ++ ".csv"
         mode := "w"
         header := ["Timestamp", "CPU_Percent", "Core_Count"]
         rows := h.cpu.map (fun d =>
           [CsvCell.num d.timestamp, CsvCell.num d.cpu_percent,
            CsvCell.nat d.core_count]) }]) ++
    (if h.memory.isEmpty then [] else
      [{ path := csv_directory ++ "/memory_data_" ++ timestamp ++ ".csv"
         mode := "w"
         header := ["Timestamp", "Memory_Percent", "Used_GB", "Total_GB"]
         rows := h.memory.map (fun d =>
           [CsvCell.num d.timestamp, CsvCell.num d.memory_percent,
            CsvCell.num d.used_gb, CsvCell.num d.total_gb]) }])

/-- C3 (code_bug evidence): an export cycle with a non-empty network
buffer and empty cpu/memory/disk buffers writes no file at all, although
the function's own docstring documents a
`network_data_YYYYMMDD_HHMMSS.csv` export and the claim requires one file
per non-empty metric. -/
theorem export_network_only_writes_nothing :
    export_data_to_csv true "exports" "20240101_120000"
      ⟨[], [], [⟨0, 100, 200, 3, 4, ["eth0"]⟩], []⟩ = [] := by
  rfl

theorem mem_export_spec (e : Bool) (d t : String) (h : DataHistory)
    (f : CsvFile) (hf : f ∈ export_data_to_csv e d t h) :
    f.mode = "w" ∧
      (f.path = d ++ "/cpu_data_" ++ t ++ ".csv" ∨
        f.path = d ++ "/memory_data_" ++ t ++ ".csv") := by
  unfold export_data_to_csv at hf
  by_cases he : e = false
  · rw [if_pos he] at hf
    exact absurd hf (List.not_mem_nil f)
  · rw [if_neg he] at hf
    rcases List.mem_append.mp hf with hf1 | hf2
    · by_cases hc : h.cpu.isEmpty
      · rw [if_pos hc] at hf1
        exact absurd hf1 (List.not_mem_nil f)
      · rw [if_neg hc] at hf1
        have hef := List.mem_singleton.mp hf1
        subst hef
        exact ⟨rfl, Or.inl rfl⟩
    · by_cases hm : h.memory.isEmpty
      · rw [if_pos hm] at hf2
        exact absurd hf2 (List.not_mem_nil f)
      · rw [if_neg hm] at hf2
        have hef := List.mem_singleton.mp hf2
        subst hef
        exact ⟨rfl, Or.inr rfl⟩

theorem metric_path_inj (p d t1 t2 : String)
    (h : d ++ p ++ t1 ++ ".csv" = d ++ p ++ t2 ++ ".csv") : t1 = t2 := by
  apply String.ext
  have hd := congrArg String.data h
  simp only [String.data_append] at hd
  exact List.append_cancel_left (List.append_cancel_right hd)

theorem cpu_memory_path_ne (d t1 t2 : String) :
    d ++ "/cpu_data_" ++ t1 ++ ".csv" ≠ d ++ "/memory_data_" ++ t2 ++ ".csv" := by
  intro h
  have hd := congrArg String.data h
  simp only [String.data_append, List.append_assoc] at hd
  have h1 := List.append_cancel_left hd
  have h2 := congrArg (fun l => l[1]?) h1
  simp at h2

/-- A first export invocation: one cpu sample in the history. -/
def cpuHistA : DataHistory := ⟨[⟨0, 50, 4, [50, 50, 50, 50]⟩], [], [], []⟩

/-- A later export invocation in the same wall-clock second: a different
cpu sample in the history. -/
def cpuHistB : DataHistory := ⟨[⟨10, 75, 4, [75, 75, 75, 75]⟩], [], [], []⟩

/-- C6 counterexample: two distinct invocations of `export_data_to_csv`
whose `datetime.now().strftime("%Y%m%d_%H%M%S")` timestamps fall in the
same second produce a file with the *same* path, and the file is opened
with mode `'w'`, so the second invocation overwrites the first — the
claim that files written by two invocations never collide or overwrite is
false. -/
theorem export_same_second_collides :
    ((export_data_to_csv true "exports" "20240101_120000" cpuHistA).map
        (fun f => f.path) = ["exports/cpu_data_20240101_120000.csv"]) ∧
    ((export_data_to_csv true "exports" "20240101_120000" cpuHistB).map
        (fun f => f.path) = ["exports/cpu_data_20240101_120000.csv"]) ∧
    ((export_data_to_csv true "exports" "20240101_120000" cpuHistB).map
        (fun f => f.mode) = ["w"]) := by
  refine ⟨rfl, rfl, rfl⟩

/-- C6 amended: every written file's name is metric kind plus the
invocation's timestamp, so files written by two invocations with
*different* timestamp strings (different seconds) never collide, and every
file is opened with mode `'w'` — created or truncated, never appended to.
(Invocations within the same second do collide; see the counterexample.) -/
theorem export_no_collision_distinct_timestamps (e1 e2 : Bool)
    (d t1 t2 : String) (h1 h2 : DataHistory) (hne : t1 ≠ t2) :
    ∀ f1 ∈ export_data_to_csv e1 d t1 h1,
      ∀ f2 ∈ export_data_to_csv e2 d t2 h2,
        f1.path ≠ f2.path ∧ f1.mode = "w" ∧ f2.mode = "w" := by
  intro f1 hf1 f2 hf2
  obtain ⟨hm1, hp1⟩ := mem_export_spec e1 d t1 h1 f1 hf1
  obtain ⟨hm2, hp2⟩ := mem_export_spec e2 d t2 h2 f2 hf2
  refine ⟨?_, hm1, hm2⟩
  rcases hp1 with hp1 | hp1 <;> rcases hp2 with hp2 | hp2 <;> rw [hp1, hp2]
  · exact fun hcol => hne (metric_path_inj "/cpu_data_" d t1 t2 hcol)
  · exact cpu_memory_path_ne d t1 t2
  · exact fun hcol => cpu_memory_path_ne d t2 t1 hcol.symm
  · exact fun hcol => hne (metric_path_inj "/memory_data_" d t1 t2 hcol)

/-- The file written by the first invocation of the witness below. -/
def exportedFileA : CsvFile :=
  { path := "exports/cpu_data_20240101_120000.csv"
    mode := "w"
    header := ["Timestamp", "CPU_Percent", "Core_Count"]
    rows := [[CsvCell.num 0, CsvCell.num 50, CsvCell.nat 4]] }

/-- The file written by the second invocation of the witness below. -/
def exportedFileB : CsvFile :=
  { path := "exports/cpu_data_20240101_120001.csv"
    mode := "w"
    header := ["Timestamp", "CPU_Percent", "Core_Count"]
    rows := [[CsvCell.num 10, CsvCell.num 75, CsvCell.nat 4]] }

/-- Witness for amended C6: the files of two invocations one second apart
have different paths and both use mode `'w'`. -/
theorem export_no_collision_witness :
    exportedFileA.path ≠ exportedFileB.path ∧
      exportedFileA.mode = "w" ∧ exportedFileB.mode = "w" :=
  export_no_collision_distinct_timestamps true true "exports"
    "20240101_120000" "20240101_120001" cpuHistA cpuHistB (by decide)
    exportedFileA (by decide) exportedFileB (by decide)

/-- One call of `check_alert_conditions` made by a sampling loop:
the wall-clock time, the metric name, the sampled value and the
configured threshold. -/
structure AlertEvent where
  now : ℚ
  metric : String
  value : ℚ
  threshold : ℚ
deriving DecidableEq

/-- The alert key of an event. -/
def AlertEvent.key (e : AlertEvent) : AlertKey := (e.metric, e.threshold)

/-- Run one alert check, threading the `alert_history` and instrumenting
the run with the count of calls that returned true and the list of keys
that fired (in firing order). -/
def alertRunStep (cooldown : ℚ) (acc : ℕ × List AlertKey × AlertHist)
    (e : AlertEvent) : ℕ × List AlertKey × AlertHist :=
  (acc.1 +
    (if (check_alert_conditions cooldown acc.2.2 e.now e.metric e.value
        e.threshold).1 then 1 else 0),
   acc.2.1 ++
    (if (check_alert_conditions cooldown acc.2.2 e.now e.metric e.value
        e.threshold).1 then [e.key] else []),
   (check_alert_conditions cooldown acc.2.2 e.now e.metric e.value
     e.threshold).2)

/-- Run a sequence of alert checks from monitoring start (empty
`alert_history`): (number of fires, keys fired, final `alert_history`). -/
def runAlerts (cooldown : ℚ) (evs : List AlertEvent) :
    ℕ × List AlertKey × AlertHist :=
  evs.foldl (alertRunStep cooldown) (0, [], [])

/-- The keys of an `alert_history` dict. -/
def keysOf (ah : AlertHist) : List AlertKey := ah.map Prod.fst

/-- C4 counterexample: cooldown 300, the same `('cpu', 80)` breach firing
at t = 0 and again at t = 301 (past cooldown): `check_alert_conditions`
returns true twice, but `get_monitoring_summary` reports
`alerts_triggered = len(self.alert_history) = 1`, because the second fire
overwrites the same dict key — so `alerts_triggered` is not the number of
fires. -/
theorem alerts_triggered_undercounts :
    (runAlerts 300 [⟨0, "cpu", 85, 80⟩, ⟨301, "cpu", 85, 80⟩]).1 = 2 ∧
    (get_monitoring_summary 400 (some 0)
        (runAlerts 300 [⟨0, "cpu", 85, 80⟩, ⟨301, "cpu", 85, 80⟩]).2.2
        ⟨[], [], [], []⟩).alerts_triggered = 1 := by
  have hc2 : check_alert_conditions 300 [(("cpu", 80), 0)] 301 "cpu" 85 80
      = (true, [(("cpu", 80), 301)]) := by
    unfold check_alert_conditions
    have hlk : ([(("cpu", 80), 0)] : AlertHist).lookup ("cpu", 80)
        = some 0 := rfl
    simp only [hlk]
    norm_num [histSet, List.filter]
  have s1 : alertRunStep 300 (0, [], []) ⟨0, "cpu", 85, 80⟩
      = (1, [("cpu", 80)], [(("cpu", 80), 0)]) := rfl
  have s2 : alertRunStep 300 (1, [("cpu", 80)], [(("cpu", 80), 0)])
      ⟨301, "cpu", 85, 80⟩
      = (2, [("cpu", 80), ("cpu", 80)], [(("cpu", 80), 301)]) := by
    unfold alertRunStep
    rw [hc2]
    rfl
  have hrun : runAlerts 300 [⟨0, "cpu", 85, 80⟩, ⟨301, "cpu", 85, 80⟩]
      = (2, [("cpu", 80), ("cpu", 80)], [(("cpu", 80), 301)]) := by
    unfold runAlerts
    rw [List.foldl_cons, s1, List.foldl_cons, s2, List.foldl_nil]
  rw [hrun]
  exact ⟨rfl, rfl⟩

theorem check_fire_snd (cooldown : ℚ) (h : AlertHist) (now : ℚ)
    (metric : String) (value threshold : ℚ) :
    (check_alert_conditions cooldown h now metric value threshold).1 = true →
      (check_alert_conditions cooldown h now metric value threshold).2 =
        histSet h (metric, threshold) now := by
  unfold check_alert_conditions
  cases hl : h.lookup (metric, threshold) with
  | none =>
      by_cases hv : threshold < value
      · simp [hv]
      · simp [hv]
  | some last =>
      by_cases hc : now - last < cooldown
      · simp [hc]
      · by_cases hv : threshold < value
        · simp [hc, hv]
        · simp [hc, hv]

theorem mem_keysOf_histSet (h : AlertHist) (k x : AlertKey) (v : ℚ) :
    x ∈ keysOf (histSet h k v) ↔ x = k ∨ x ∈ keysOf h := by
  simp only [keysOf, histSet, List.map_cons, List.mem_cons, List.mem_map,
    List.mem_filter]
  constructor
  · rintro (rfl | ⟨p, ⟨hp, _⟩, rfl⟩)
    · exact Or.inl rfl
    · exact Or.inr ⟨p, hp, rfl⟩
  · rintro (rfl | ⟨p, hp, rfl⟩)
    · exact Or.inl rfl
    · by_cases hx : p.1 = k
      · exact Or.inl hx
      · exact Or.inr ⟨p, ⟨hp, by simpa using hx⟩, rfl⟩

theorem keysOf_histSet_nodup (h : AlertHist) (k : AlertKey) (v : ℚ)
    (hn : (keysOf h).Nodup) : (keysOf (histSet h k v)).Nodup := by
  have hsub : List.Sublist ((h.filter (fun p => p.1 ≠ k)).map Prod.fst)
      (h.map Prod.fst) :=
    List.Sublist.map Prod.fst (List.filter_sublist h)
  have htail : ((h.filter (fun p => p.1 ≠ k)).map Prod.fst).Nodup :=
    List.Nodup.sublist hsub hn
  have hk : k ∉ (h.filter (fun p => p.1 ≠ k)).map Prod.fst := by
    intro hmem
    obtain ⟨p, hp, hpk⟩ := List.mem_map.mp hmem
    have hne := (List.mem_filter.mp hp).2
    simp at hne
    exact hne hpk
  simpa [keysOf, histSet] using List.Nodup.cons hk htail

theorem toFinset_keysOf_histSet (h : AlertHist) (k : AlertKey) (v : ℚ) :
    (keysOf (histSet h k v)).toFinset = insert k (keysOf h).toFinset := by
  ext x
  simp [mem_keysOf_histSet]

theorem alertRunStep_inv (cooldown : ℚ) (acc : ℕ × List AlertKey × AlertHist)
    (e : AlertEvent) (h1 : (keysOf acc.2.2).Nodup)
    (h2 : (keysOf acc.2.2).toFinset = acc.2.1.toFinset) :
    (keysOf (alertRunStep cooldown acc e).2.2).Nodup ∧
      (keysOf (alertRunStep cooldown acc e).2.2).toFinset =
        (alertRunStep cooldown acc e).2.1.toFinset := by
  unfold alertRunStep
  cases hb : (check_alert_conditions cooldown acc.2.2 e.now e.metric e.value
      e.threshold).1 with
  | false =>
      have hfr := check_nofire_frame cooldown acc.2.2 e.now e.metric e.value
        e.threshold hb
      simp only [if_neg Bool.false_ne_true, List.append_nil, hfr]
      exact ⟨h1, h2⟩
  | true =>
      have hsnd := check_fire_snd cooldown acc.2.2 e.now e.metric e.value
        e.threshold hb
      simp only [if_pos rfl, hsnd]
      refine ⟨keysOf_histSet_nodup _ _ _ h1, ?_⟩
      rw [toFinset_keysOf_histSet, h2]
      ext x
      simp [AlertEvent.key]
      tauto

theorem runAlerts_inv (cooldown : ℚ) :
    ∀ (evs : List AlertEvent) (acc : ℕ × List AlertKey × AlertHist),
      (keysOf acc.2.2).Nodup →
      (keysOf acc.2.2).toFinset = acc.2.1.toFinset →
      (keysOf (evs.foldl (alertRunStep cooldown) acc).2.2).Nodup ∧
        (keysOf (evs.foldl (alertRunStep cooldown) acc).2.2).toFinset =
          (evs.foldl (alertRunStep cooldown) acc).2.1.toFinset := by
  intro evs
  induction evs with
  | nil =>
      intro acc h1 h2
      exact ⟨h1, h2⟩
  | cons e evs ih =>
      intro acc h1 h2
      rw [List.foldl_cons]
      obtain ⟨h1', h2'⟩ := alertRunStep_inv cooldown acc e h1 h2
      exact ih (alertRunStep cooldown acc e) h1' h2'

/-- C4 amended: the `alerts_triggered` field of `get_monitoring_summary`
equals the number of *distinct* `(metric, threshold)` alert keys that have
fired at least once since monitoring started (the size of the
`alert_history` dict), recomputed on demand — not the total number of
times `check_alert_conditions` returned true. -/
theorem alerts_triggered_counts_distinct_keys (cooldown now : ℚ)
    (st : Option ℚ) (h : DataHistory) (evs : List AlertEvent) :
    (get_monitoring_summary now st (runAlerts cooldown evs).2.2
        h).alerts_triggered =
      (runAlerts cooldown evs).2.1.toFinset.card := by
  obtain ⟨hnd, hfs⟩ := runAlerts_inv cooldown evs (0, [], [])
    (by simp [keysOf]) (by simp [keysOf])
  rw [show runAlerts cooldown evs =
    evs.foldl (alertRunStep cooldown) (0, [], []) from rfl]
  have halerts :
      (get_monitoring_summary now st
        (evs.foldl (alertRunStep cooldown) (0, [], [])).2.2
        h).alerts_triggered =
      (evs.foldl (alertRunStep cooldown) (0, [], [])).2.2.length := rfl
  have hklen :
      (keysOf (evs.foldl (alertRunStep cooldown) (0, [], [])).2.2).length =
      (evs.foldl (alertRunStep cooldown) (0, [], [])).2.2.length := by
    simp [keysOf]
  rw [halerts, ← hklen, ← List.toFinset_card_of_nodup hnd, hfs]

/-- A thread in `self.monitor_threads`: its `name` argument and whether
`is_alive()` returns true at the moment of observation. -/
structure ThreadInfo where
  name : String
  alive : Bool
deriving DecidableEq

/-- The mutable monitor state touched by the lifecycle methods:
`self.monitoring`, `self.monitor_threads`, `self.start_time`,
`self.data_history`, `self.alert_history`. -/
structure SupervisorState where
  monitoring : Bool
  monitor_threads : List ThreadInfo
  start_time : Option ℚ
  data_history : DataHistory
  alert_history : AlertHist

/-- The spec's `LifecycleError` (start while running / stop while idle);
the exception channel of the lifecycle methods.  The code never raises
it. -/
inductive LifecycleError
  | startWhileRunning
  | stopWhileIdle
deriving DecidableEq

/-- Names of the four sampling threads created by
`start_comprehensive_monitoring`. -/
def monitorThreadNames : List String :=
  ["CPU-Monitor", "Memory-Monitor", "Network-Monitor", "Disk-Monitor"]

/-- Model of `EnhancedSystemMonitor.start_comprehensive_monitoring(interval)`:
unconditionally sets `self.monitoring = True`, records
`self.start_time = datetime.now()`, spawns the four sampling threads (plus
the `Data-Export` thread when CSV export is enabled) and appends them to
`self.monitor_threads`.  The second component is the exception channel:
the method performs no running-state check and never raises. -/
def start_comprehensive_monitoring (enable_csv_export : Bool) (now : ℚ)
    (s : SupervisorState) : SupervisorState × Option LifecycleError :=
  ({ s with
      monitoring := true
      start_time := some now
      monitor_threads := s.monitor_threads ++
        ((monitorThreadNames ++
          (if enable_csv_export then ["Data-Export"] else [])).map
          (fun n => { name := n, alive := true })) },
   none)

/-- A freshly constructed monitor: not monitoring, no threads, no start
time, empty histories. -/
def idleState : SupervisorState :=
  { monitoring := false
    monitor_threads := []
    start_time := none
    data_history := ⟨[], [], [], []⟩
    alert_history := [] }

/-- A monitor that is already running: flag set, five live threads,
start time recorded. -/
def runningState : SupervisorState :=
  { monitoring := true
    monitor_threads :=
      (monitorThreadNames ++ ["Data-Export"]).map
        (fun n => { name := n, alive := true })
    start_time := some 0
    data_history := ⟨[], [], [], []⟩
    alert_history := [] }

/-- C5 counterexample: calling `start_comprehensive_monitoring` on an
already-running monitor raises no error *and* is not a no-op — it mutates
the state (appending a fresh set of threads and resetting the start
time), i.e. the second start is silently accepted as a fresh start. -/
theorem start_while_running_not_noop_nor_error :
    runningState.monitoring = true ∧
    (start_comprehensive_monitoring true 10 runningState).2 = none ∧
    (start_comprehensive_monitoring true 10 runningState).1 ≠ runningState := by
  refine ⟨rfl, rfl, ?_⟩
  intro h
  have hlen := congrArg (fun st => st.monitor_threads.length) h
  simp [start_comprehensive_monitoring, runningState, monitorThreadNames]
    at hlen

/-- C5 amended: a start issued while the monitor is already running is
silently accepted as a fresh start — it surfaces no `LifecycleError`,
leaves the flag set, resets the start time to the current time, and
appends a fresh set of spawned threads (4, plus 1 when CSV export is
enabled) to the thread list, so the state is not left unchanged. -/
theorem start_while_running_restarts (enable_csv_export : Bool) (now : ℚ)
    (s : SupervisorState) (hrun : s.monitoring = true) :
    (start_comprehensive_monitoring enable_csv_export now s).2 = none ∧
    (start_comprehensive_monitoring enable_csv_export now s).1.monitoring
      = true ∧
    (start_comprehensive_monitoring enable_csv_export now s).1.start_time
      = some now ∧
    (start_comprehensive_monitoring enable_csv_export
        now s).1.monitor_threads.length
      = s.monitor_threads.length + 4 +
        (if enable_csv_export then 1 else 0) := by
  refine ⟨rfl, rfl, rfl, ?_⟩
  cases enable_csv_export <;>
    simp [start_comprehensive_monitoring, monitorThreadNames]

/-- Witness for amended C5: starting the already-running `runningState`
returns no error, keeps it running, resets the start time and grows the
thread list from 5 to 10. -/
theorem start_while_running_restarts_witness :
    (start_comprehensive_monitoring true 10 runningState).2 = none ∧
    (start_comprehensive_monitoring true 10 runningState).1.monitoring
      = true ∧
    (start_comprehensive_monitoring true 10 runningState).1.start_time
      = some 10 ∧
    (start_comprehensive_monitoring true 10
        runningState).1.monitor_threads.length
      = runningState.monitor_threads.length + 4 +
        (if true then 1 else 0) :=
  start_while_running_restarts true 10 runningState rfl

/-- The observable effects of one `stop_monitoring()` call: the
`(thread name, timeout)` pairs passed to `Thread.join`, and how many
times `export_data_to_csv` was invoked. -/
structure StopEffects where
  joins : List (String × ℚ)
  export_calls : ℕ
deriving DecidableEq

/-- Model of `EnhancedSystemMonitor.stop_monitoring()`: clears `self.monitoring`,
joins every thread in `self.monitor_threads` that `is_alive()` with
`timeout=5`, then invokes `export_data_to_csv()` exactly once.  The
history buffers and the rest of the state are not mutated. -/
def stop_monitoring (s : SupervisorState) : SupervisorState × StopEffects :=
  ({ s with monitoring := false },
   { joins := (s.monitor_threads.filter (fun t => t.alive)).map
       (fun t => (t.name, 5))
     export_calls := 1 })

/-- C7: after `stop_monitoring` returns, the running flag is false, every
thread of `self.monitor_threads` still alive is joined with the bounded
timeout of 5 seconds (and no join uses any other timeout), exactly one
final `export_data_to_csv` pass is triggered, and the history buffers are
untouched (stable and snapshot-able) — for every state, including one
reached immediately after a start. -/
theorem stop_monitoring_correct (s : SupervisorState) :
    (stop_monitoring s).1.monitoring = false ∧
    (∀ t ∈ s.monitor_threads, t.alive = true →
      (t.name, (5 : ℚ)) ∈ (stop_monitoring s).2.joins) ∧
    (∀ j ∈ (stop_monitoring s).2.joins, j.2 = 5) ∧
    (stop_monitoring s).2.export_calls = 1 ∧
    (stop_monitoring s).1.data_history = s.data_history ∧
    (stop_monitoring s).1.alert_history = s.alert_history := by
  refine ⟨rfl, ?_, ?_, rfl, rfl, rfl⟩
  · intro t ht ha
    simp only [stop_monitoring, List.mem_map]
    exact ⟨t, List.mem_filter.mpr ⟨ht, by simp [ha]⟩, rfl⟩
  · intro j hj
    simp only [stop_monitoring, List.mem_map] at hj
    obtain ⟨t, _, rfl⟩ := hj
    rfl

/-- Witness for C7, with stop called immediately after start: the flag is
cleared, every live thread is joined with timeout 5, one export pass runs
and the buffers are untouched. -/
theorem stop_monitoring_correct_witness :
    (stop_monitoring
        (start_comprehensive_monitoring true 0 idleState).1).1.monitoring
      = false ∧
    ((("CPU-Monitor", (5 : ℚ)) ∈ (stop_monitoring
        (start_comprehensive_monitoring true 0 idleState).1).2.joins) ∧
      (stop_monitoring
        (start_comprehensive_monitoring true 0 idleState).1).2.export_calls
        = 1) := by
  obtain ⟨hflag, hjoin, _, hexp, _, _⟩ := stop_monitoring_correct
    (start_comprehensive_monitoring true 0 idleState).1
  refine ⟨hflag, hjoin ⟨"CPU-Monitor", true⟩ (by decide) rfl, hexp⟩

/-- The operations of one iteration of the `monitor_cpu_enhanced` loop
body, in program order, with the wall-clock duration each one blocks for:
`psutil.cpu_percent(interval=interval)` blocks for its measurement
window, as does `psutil.cpu_percent(interval=interval, percpu=True)`;
appending to the history, logging and the alert check are non-blocking;
`time.sleep(interval)` blocks for its argument. -/
inductive CpuLoopOp
  | measure_cpu_percent (window : ℚ)
  | measure_per_cpu (window : ℚ)
  | append_history
  | check_alerts
  | sleep_for (d : ℚ)
deriving DecidableEq

/-- The body of the `while self.monitoring:` loop of
`monitor_cpu_enhanced(interval)`:
`cpu_percent = psutil.cpu_percent(interval=interval)`, then
`per_cpu = psutil.cpu_percent(interval=interval, percpu=True)`, then the
history append, the alert check, and finally `time.sleep(interval)`. -/
def monitor_cpu_iteration (interval : ℚ) : List CpuLoopOp :=
  [CpuLoopOp.measure_cpu_percent interval,
   CpuLoopOp.measure_per_cpu interval,
   CpuLoopOp.append_history,
   CpuLoopOp.check_alerts,
   CpuLoopOp.sleep_for interval]

/-- How long one loop operation blocks. -/
def CpuLoopOp.blockingTime : CpuLoopOp → ℚ
  | .measure_cpu_percent w => w
  | .measure_per_cpu w => w
  | .append_history => 0
  | .check_alerts => 0
  | .sleep_for d => d

/-- The effective sampling period of the CPU loop: the total blocking
time of one iteration. -/
def cpuIterationPeriod (interval : ℚ) : ℚ :=
  ((monitor_cpu_iteration interval).map CpuLoopOp.blockingTime).sum

/-- C9 counterexample: at interval 1 the loop body *does* contain a
separate full-interval `time.sleep(interval)` after the measurement, and
the effective sampling period of one iteration is 3 intervals (blocking
overall measurement + blocking per-core measurement + sleep), not 1. -/
theorem monitor_cpu_extra_sleep :
    CpuLoopOp.sleep_for 1 ∈ monitor_cpu_iteration 1 ∧
      cpuIterationPeriod 1 = 3 := by
  constructor
  · simp [monitor_cpu_iteration]
  · norm_num [cpuIterationPeriod, monitor_cpu_iteration, CpuLoopOp.blockingTime]

/-- C9 amended: each iteration of `monitor_cpu_enhanced` blocks for the
overall `cpu_percent` measurement window (one interval), then again for
the per-core measurement window (a second interval), and then performs an
explicit separate `time.sleep(interval)` (a third interval): the
effective sampling period is three intervals per iteration, not one. -/
theorem monitor_cpu_period_three_intervals (interval : ℚ) :
    CpuLoopOp.measure_cpu_percent interval ∈ monitor_cpu_iteration interval ∧
    CpuLoopOp.measure_per_cpu interval ∈ monitor_cpu_iteration interval ∧
    CpuLoopOp.sleep_for interval ∈ monitor_cpu_iteration interval ∧
    cpuIterationPeriod interval = 3 * interval := by
  refine ⟨by simp [monitor_cpu_iteration], by simp [monitor_cpu_iteration],
    by simp [monitor_cpu_iteration], ?_⟩
  simp [cpuIterationPeriod, monitor_cpu_iteration, CpuLoopOp.blockingTime]
  ring

end EnhancedMonitor
